import Mathlib

/-!
Verification development for the one-commodity market simulation
(`one_commodity.py`).

The Python module is embedded shallowly: Python floats are modelled as real
numbers, mutation as explicit state passing, and every Python operation that
can raise an exception (`math.sqrt` of a negative number, a failing `assert`,
`list.pop(0)` on an empty list, division by zero) is modelled as an
`Option`-valued function returning `none` at exactly the inputs where the
Python code raises.

`random.shuffle` is modelled by a parameter supplying, for every call site
(indexed by the loop iteration counter), a permutation of the list being
shuffled; quantifying over that parameter covers every possible random
outcome.
-/

noncomputable section

namespace OneCommodity

/-- The constant `PRICE_ADJUSTMENT = 1.02` from the source. -/
def PRICE_ADJUSTMENT : ℝ := 1.02

/-- State of a `Producer` object.  The process-wide id counter is omitted:
no id is ever read by the simulation logic. -/
structure Producer where
  stock : ℝ
  price : ℝ
  minimum_price : ℝ
  more_per_dollar : ℝ

/-- Constructor `Producer.__init__(minimum_price, more_per_dollar, price_belief)`:
`stock = 0`, `price = price_belief`. -/
def Producer.init (minimum_price more_per_dollar price_belief : ℝ) : Producer :=
  { stock := 0, price := price_belief, minimum_price := minimum_price,
    more_per_dollar := more_per_dollar }

/-- Method `Producer.produce`: `stock = max(0, (price - minimum_price) * more_per_dollar)`. -/
def Producer.produce (p : Producer) : Producer :=
  { p with stock := max 0 ((p.price - p.minimum_price) * p.more_per_dollar) }

/-- Method `Producer.sell(max_amount)`: `sold = min(max_amount, stock); stock -= sold;
return sold`.  Returns the pair (amount sold, updated producer). -/
def Producer.sell (p : Producer) (max_amount : ℝ) : ℝ × Producer :=
  (min max_amount p.stock, { p with stock := p.stock - min max_amount p.stock })

/-- Method `Producer.adjust_price`: multiply `price` by `PRICE_ADJUSTMENT` if
`stock == 0`, otherwise divide it by `PRICE_ADJUSTMENT`. -/
def Producer.adjust_price (p : Producer) : Producer :=
  if p.stock = 0 then { p with price := p.price * PRICE_ADJUSTMENT }
  else { p with price := p.price / PRICE_ADJUSTMENT }

/-- State of a `Consumer` object (id counter omitted, as for `Producer`). -/
structure Consumer where
  amount_for_free : ℝ
  less_per_dollar : ℝ
  purchased_this_round : ℝ
  paid_this_round : ℝ

/-- Constructor `Consumer.__init__(amount_for_free, less_per_dollar)`. -/
def Consumer.init (amount_for_free less_per_dollar : ℝ) : Consumer :=
  { amount_for_free := amount_for_free, less_per_dollar := less_per_dollar,
    purchased_this_round := 0, paid_this_round := 0 }

/-- Method `Consumer.reset`: zero the per-round accumulators. -/
def Consumer.reset (c : Consumer) : Consumer :=
  { c with purchased_this_round := 0, paid_this_round := 0 }

/-- The coefficient `b` computed in `Consumer.desired_at_price`:
`b = 2 * purchased_this_round + less_per_dollar * price - amount_for_free`. -/
def Consumer.quadB (c : Consumer) (price : ℝ) : ℝ :=
  2 * c.purchased_this_round + c.less_per_dollar * price - c.amount_for_free

/-- The coefficient `c` computed in `Consumer.desired_at_price`:
`c = purchased_this_round**2 + less_per_dollar * paid_this_round
   - amount_for_free * purchased_this_round`. -/
def Consumer.quadC (c : Consumer) : ℝ :=
  c.purchased_this_round ^ 2 + c.less_per_dollar * c.paid_this_round -
    c.amount_for_free * c.purchased_this_round

/-- Method `Consumer.desired_at_price(price)`.  Returns `none` when the Python code
raises: `math.sqrt` raises `ValueError` on a negative discriminant, and the
`assert (-b - sqrt_part) <= 0` raises `AssertionError` when it fails.
Otherwise returns `max((-b + sqrt(b^2 - 4c)) / 2, 0)`. -/
def Consumer.desired_at_price (c : Consumer) (price : ℝ) : Option ℝ :=
  if c.quadB price ^ 2 - 4 * c.quadC < 0 then
    none
  else
    if -c.quadB price - Real.sqrt (c.quadB price ^ 2 - 4 * c.quadC) ≤ 0 then
      some (max ((-c.quadB price + Real.sqrt (c.quadB price ^ 2 - 4 * c.quadC)) / 2) 0)
    else none

/-- Method `Consumer.purchase(amount, price)`:
`purchased_this_round += amount; paid_this_round += price * amount`. -/
def Consumer.purchase (c : Consumer) (amount price : ℝ) : Consumer :=
  { c with purchased_this_round := c.purchased_this_round + amount,
           paid_this_round := c.paid_this_round + price * amount }

/-- Python's `int()` applied to a float: truncation toward zero. -/
def pyint (x : ℝ) : ℤ := if 0 ≤ x then ⌊x⌋ else ⌈x⌉

/-- A model of `random.shuffle`: for every call index, a permutation of the
shuffled list.  Quantifying over `Shuffle` values covers every sequence of
outcomes the random number generator can produce. -/
def Shuffle : Type := ℕ → (l : List Consumer) → { l2 : List Consumer // l2.Perm l }

/-- The trivial shuffle (identity permutation at every call). -/
def idShuffle : Shuffle := fun _ l => ⟨l, List.Perm.refl l⟩

/-- The state of the matching loop in `simulate_round`: the current
producer/consumer (already popped from their queues), the two queues, the
producers and consumers already retired from the loop (popped in earlier
iterations; in Python these objects survive in the caller's lists), and the
running totals.  `transactions` counts executed loop iterations. -/
structure RoundState where
  producer : Producer
  producer_queue : List Producer
  consumer : Consumer
  consumer_queue : List Consumer
  done_producers : List Producer
  done_consumers : List Consumer
  total_sold : ℝ
  total_paid : ℝ
  transactions : ℕ

/-- The state after the body of one loop iteration up to the two queue
advances: `desired = int(consumer.desired_at_price(producer.price))` (the
value `dreal` is the result of `desired_at_price`),
`purchased = producer.sell(desired)`,
`consumer.purchase(purchased, producer.price)`,
`total_sold += purchased`, `total_paid += purchased * producer.price`. -/
def afterSale (s : RoundState) (dreal : ℝ) : RoundState where
  producer := (s.producer.sell ((pyint dreal : ℤ) : ℝ)).2
  producer_queue := s.producer_queue
  consumer := s.consumer.purchase ((s.producer.sell ((pyint dreal : ℤ) : ℝ)).1) s.producer.price
  consumer_queue := s.consumer_queue
  done_producers := s.done_producers
  done_consumers := s.done_consumers
  total_sold := s.total_sold + (s.producer.sell ((pyint dreal : ℤ) : ℝ)).1
  total_paid := s.total_paid + (s.producer.sell ((pyint dreal : ℤ) : ℝ)).1 * s.producer.price
  transactions := s.transactions + 1

/-- Source line `if producer.stock == 0: producer = producer_queue.pop(0)`.
Returns `none` when the pop raises `IndexError` (empty queue); this is
unreachable from the loop, whose guard ensures the queue is non-empty. -/
def producerAdvance (s : RoundState) : Option RoundState :=
  if s.producer.stock = 0 then
    (s.producer_queue.head?).map fun p =>
      { s with producer := p, producer_queue := s.producer_queue.tail,
               done_producers := s.producer :: s.done_producers }
  else some s

/-- Source lines `if desired == purchased: consumer = consumer_queue.pop(0)
else: shuffle(consumer_queue)`.  `desired` and `purchased` are passed as the
real numbers compared by Python's `==`.  Returns `none` when the pop raises
`IndexError` (unreachable from the loop). -/
def consumerAdvance (sh : Shuffle) (n : ℕ) (desired purchased : ℝ) (s : RoundState) :
    Option RoundState :=
  if desired = purchased then
    (s.consumer_queue.head?).map fun c =>
      { s with consumer := c, consumer_queue := s.consumer_queue.tail,
               done_consumers := s.consumer :: s.done_consumers }
  else some { s with consumer_queue := (sh n s.consumer_queue).1 }

/-- One full iteration of the matching loop body (a "transaction"):
the `desired_at_price` / `sell` / `purchase` step followed by the producer
and consumer queue advances.  `none` propagates an exception raised inside
the body. -/
def matchStep (sh : Shuffle) (n : ℕ) (s : RoundState) : Option RoundState :=
  match s.consumer.desired_at_price s.producer.price with
  | none => none
  | some dreal =>
    (producerAdvance (afterSale s dreal)).bind
      (consumerAdvance sh n ((pyint dreal : ℤ) : ℝ)
        ((s.producer.sell ((pyint dreal : ℤ) : ℝ)).1))

/-- The matching loop `while producer_queue and consumer_queue: ...` of
`simulate_round`.  The guard is tested before each transaction; when it
fails, the loop exits returning the current state unchanged.  Termination:
every successful `matchStep` pops at least one element from one of the two
queues (proved inline below, and restated later as a theorem). -/
def matchLoop (sh : Shuffle) (n : ℕ) (s : RoundState) : Option RoundState :=
  match hpq : s.producer_queue, hcq : s.consumer_queue with
  | [], _ => some s
  | _ :: _, [] => some s
  | p :: ps, c :: cs =>
    match hstep : matchStep sh n s with
    | none => none
    | some s1 => matchLoop sh (n + 1) s1
termination_by s.producer_queue.length + s.consumer_queue.length
decreasing_by
  simp only [matchStep] at hstep
  rcases hd : s.consumer.desired_at_price s.producer.price with _ | dreal
  · rw [hd] at hstep
    exact absurd hstep (by simp)
  · rw [hd] at hstep
    simp only [Option.bind_eq_some] at hstep
    obtain ⟨s2, hpa, hca⟩ := hstep
    have h1 : (afterSale s dreal).producer_queue = p :: ps := hpq
    have h2 : (afterSale s dreal).consumer_queue = c :: cs := hcq
    unfold producerAdvance at hpa
    unfold consumerAdvance at hca
    by_cases hz : (afterSale s dreal).producer.stock = 0
    · rw [if_pos hz] at hpa
      simp only [Option.map_eq_some'] at hpa
      obtain ⟨p2, hp2, rfl⟩ := hpa
      by_cases he : ((pyint dreal : ℤ) : ℝ) = (s.producer.sell ((pyint dreal : ℤ) : ℝ)).1
      · rw [if_pos he] at hca
        simp only [Option.map_eq_some'] at hca
        obtain ⟨c2, hc2, rfl⟩ := hca
        simp [h1, h2, hpq, hcq]
        omega
      · rw [if_neg he] at hca
        simp only [Option.some.injEq] at hca
        subst hca
        have hlen := List.Perm.length_eq ((sh n ((afterSale s dreal).consumer_queue)).2)
        simp [hlen, h1, h2, hpq, hcq]
    · rw [if_neg hz] at hpa
      simp only [Option.some.injEq] at hpa
      subst hpa
      by_cases he : ((pyint dreal : ℤ) : ℝ) = (s.producer.sell ((pyint dreal : ℤ) : ℝ)).1
      · rw [if_pos he] at hca
        simp only [Option.map_eq_some'] at hca
        obtain ⟨c2, hc2, rfl⟩ := hca
        simp [h1, h2, hpq, hcq]
      · exfalso
        apply hz
        have hmin : min ((pyint dreal : ℤ) : ℝ) s.producer.stock = s.producer.stock := by
          rcases min_choice ((pyint dreal : ℤ) : ℝ) s.producer.stock with hm | hm
          · exact absurd hm.symm he
          · exact hm
        show (s.producer.sell ((pyint dreal : ℤ) : ℝ)).2.stock = 0
        simp [Producer.sell, hmin]

/-- Total `purchased_this_round` over every consumer the loop state knows
(current consumer, queue, and retired consumers).  In Python this is the sum
over the caller's `consumers` list, whose objects are shared with the loop. -/
def consSum (s : RoundState) : ℝ :=
  s.consumer.purchased_this_round +
    ((s.consumer_queue.map Consumer.purchased_this_round).sum +
      (s.done_consumers.map Consumer.purchased_this_round).sum)

/-- Total `paid_this_round` over every consumer the loop state knows. -/
def paidSum (s : RoundState) : ℝ :=
  s.consumer.paid_this_round +
    ((s.consumer_queue.map Consumer.paid_this_round).sum +
      (s.done_consumers.map Consumer.paid_this_round).sum)

/-- Total `stock` over every producer the loop state knows. -/
def stockSum (s : RoundState) : ℝ :=
  s.producer.stock +
    ((s.producer_queue.map Producer.stock).sum +
      (s.done_producers.map Producer.stock).sum)

/-- Everything `simulate_round` leaves behind: the returned totals, the
average price (`none` models the uncaught `ZeroDivisionError` raised by
`total_paid / total_sold` when `total_sold == 0`), the final producer and
consumer states (the caller's objects, in loop-retirement order), and the
number of executed loop iterations. -/
structure RoundOutcome where
  total_sold : ℝ
  total_paid : ℝ
  average_price : Option ℝ
  producers : List Producer
  consumers : List Consumer
  transactions : ℕ

/-- The tail of `simulate_round` after the matching loop: every producer
adjusts its price, then `(total_sold, total_paid / total_sold)` is returned.
The division is unguarded in the source; `total_sold == 0` raises
`ZeroDivisionError`, modelled as `average_price = none`. -/
def finishRound (s : RoundState) : RoundOutcome where
  total_sold := s.total_sold
  total_paid := s.total_paid
  average_price :=
    if s.total_sold = 0 then none else some (s.total_paid / s.total_sold)
  producers :=
    (s.done_producers.reverse ++ s.producer :: s.producer_queue).map
      Producer.adjust_price
  consumers := s.done_consumers.reverse ++ s.consumer :: s.consumer_queue
  transactions := s.transactions

/-- Function `simulate_round(producers, consumers)`: every producer produces, every
consumer resets, the producer queue is sorted ascending by price (Python's
stable sort), the consumer queue is shuffled, one consumer and one producer
are popped unconditionally, then the matching loop runs and the round is
finished.  Returns `none` when the Python code raises before returning: the
initial `pop(0)` on an empty queue (`IndexError`), or an exception inside
the loop. -/
def simulate_round (sh : Shuffle) (producers : List Producer)
    (consumers : List Consumer) : Option RoundOutcome :=
  match (sh 0 (consumers.map Consumer.reset)).1,
      List.insertionSort (fun a b : Producer => a.price ≤ b.price)
        (producers.map Producer.produce) with
  | [], _ => none
  | _ :: _, [] => none
  | c0 :: cq0, p0 :: pq0 =>
    (matchLoop sh 1 ⟨p0, pq0, c0, cq0, [], [], 0, 0, 0⟩).map finishRound

/-! ### Helper lemmas about `desired_at_price` -/

/-- Characterization of a successful `desired_at_price` call: the discriminant
is non-negative (no `ValueError` from `math.sqrt`), the assertion holds, and
the result is the clamped larger root. -/
theorem desired_at_price_eq_some {c : Consumer} {r d : ℝ} :
    c.desired_at_price r = some d ↔
      0 ≤ c.quadB r ^ 2 - 4 * c.quadC ∧
      -c.quadB r - Real.sqrt (c.quadB r ^ 2 - 4 * c.quadC) ≤ 0 ∧
      max ((-c.quadB r + Real.sqrt (c.quadB r ^ 2 - 4 * c.quadC)) / 2) 0 = d := by
  unfold Consumer.desired_at_price
  split_ifs with h1 h2
  · simp [not_le.mpr h1]
  · simp [not_lt.mp h1, h2]
  · simp [h2]

/-- On a consumer with zero accumulators (fresh or reset), `desired_at_price`
reduces to the clamped base demand curve and no exception is raised. -/
theorem desired_fresh (f l r : ℝ) :
    (Consumer.init f l).desired_at_price r = some (max (f - l * r) 0) := by
  have hB : (Consumer.init f l).quadB r = l * r - f := by
    simp [Consumer.quadB, Consumer.init]
  have hC : (Consumer.init f l).quadC = 0 := by
    simp [Consumer.quadC, Consumer.init]
  refine desired_at_price_eq_some.mpr ?_
  rw [hB, hC, show (l * r - f) ^ 2 - 4 * 0 = (l * r - f) ^ 2 by ring,
    Real.sqrt_sq_eq_abs]
  refine ⟨sq_nonneg _, ?_, ?_⟩
  · have := le_abs_self (-(l * r - f))
    rw [abs_neg] at this
    linarith
  · rcases abs_cases (l * r - f) with ⟨he, hs⟩ | ⟨he, hs⟩
    · rw [he, show (-(l * r - f) + (l * r - f)) / 2 = 0 by ring]
      rw [max_eq_right (le_refl (0:ℝ)), max_eq_right (by linarith : f - l * r ≤ 0)]
    · rw [he, show (-(l * r - f) + -(l * r - f)) / 2 = f - l * r by ring]

/-- Evaluation fact `Real.sqrt 16 = 4`, used to evaluate concrete runs. -/
theorem sqrt_sixteen : Real.sqrt 16 = 4 := by
  rw [show (16 : ℝ) = 4 ^ 2 by norm_num]
  exact Real.sqrt_sq (by norm_num)

/-- Evaluation fact `Real.sqrt 49 = 7`, used to evaluate concrete runs. -/
theorem sqrt_fortynine : Real.sqrt 49 = 7 := by
  rw [show (49 : ℝ) = 7 ^ 2 by norm_num]
  exact Real.sqrt_sq (by norm_num)

/-! ### Claims C5 - C8 -/

/-- Claim C5: after a purchase of `q1 > 0` units at price `p1`, if
`desired_at_price(p2)` succeeds with a positive desired amount `d`, then the
combined quantity `q1 + d` equals the demand curve
`amount_for_free - less_per_dollar * avg` evaluated at the weighted-average
price `avg = (q1*p1 + d*p2) / (q1 + d)`, in exact real arithmetic. -/
theorem claim5_quadratic_consistency (f l q1 p1 p2 d : ℝ) (hq : 0 < q1)
    (hd : ((Consumer.init f l).purchase q1 p1).desired_at_price p2 = some d)
    (hpos : 0 < d) :
    q1 + d = f - l * ((q1 * p1 + d * p2) / (q1 + d)) := by
  obtain ⟨hD, hA, hM⟩ := desired_at_price_eq_some.mp hd
  have hBval : ((Consumer.init f l).purchase q1 p1).quadB p2
      = 2 * q1 + l * p2 - f := by
    simp [Consumer.quadB, Consumer.purchase, Consumer.init]
  have hCval : ((Consumer.init f l).purchase q1 p1).quadC
      = q1 ^ 2 + l * (p1 * q1) - f * q1 := by
    simp [Consumer.quadC, Consumer.purchase, Consumer.init]
  rw [hBval, hCval] at hD hA hM
  set B : ℝ := 2 * q1 + l * p2 - f with hB
  set C : ℝ := q1 ^ 2 + l * (p1 * q1) - f * q1 with hC
  have hsq : Real.sqrt (B ^ 2 - 4 * C) ^ 2 = B ^ 2 - 4 * C := Real.sq_sqrt hD
  have hdval : d = (-B + Real.sqrt (B ^ 2 - 4 * C)) / 2 := by
    rcases le_or_lt ((-B + Real.sqrt (B ^ 2 - 4 * C)) / 2) 0 with h | h
    · rw [max_eq_right h] at hM
      linarith
    · rw [max_eq_left h.le] at hM
      exact hM.symm
  have hquad : d ^ 2 + B * d + C = 0 := by
    rw [hdval]
    linear_combination hsq / 4
  have hsum : (0:ℝ) < q1 + d := by linarith
  have key : (q1 + d) * (q1 + d) = f * (q1 + d) - l * (q1 * p1 + d * p2) := by
    rw [hB] at hquad
    rw [hC] at hquad
    linear_combination hquad
  field_simp
  linear_combination key

/-- Witness for C5 at `f = 10, l = 1, q1 = 2, p1 = 2, p2 = 5, d = 4`:
after buying 2 units at price 2, the consumer desires 4 more at price 5, and
`2 + 4 = 10 - 1 * ((2*2 + 4*5) / (2 + 4))`. -/
theorem claim5_quadratic_consistency_w :
    (0:ℝ) < 2 ∧
    ((Consumer.init 10 1).purchase 2 2).desired_at_price 5 = some 4 ∧
    (2:ℝ) + 4 = 10 - 1 * ((2 * 2 + 4 * 5) / (2 + 4)) := by
  have heval : ((Consumer.init 10 1).purchase 2 2).desired_at_price 5 = some 4 := by
    refine desired_at_price_eq_some.mpr ?_
    have hB : ((Consumer.init 10 1).purchase 2 2).quadB 5 = -1 := by
      simp [Consumer.quadB, Consumer.purchase, Consumer.init]
      norm_num
    have hC : ((Consumer.init 10 1).purchase 2 2).quadC = -12 := by
      simp [Consumer.quadC, Consumer.purchase, Consumer.init]
      norm_num
    rw [hB, hC, show ((-1:ℝ)) ^ 2 - 4 * (-12) = 49 by norm_num, sqrt_fortynine]
    norm_num
  exact ⟨by norm_num,
    heval,
    claim5_quadratic_consistency 10 1 2 2 5 4 (by norm_num) heval (by norm_num)⟩

/-- Claim C6: for every non-negative price, a consumer with zero accumulated
purchases gets `desired_at_price(price) = max(amount_for_free -
less_per_dollar * price, 0)`; the call returns `some` so neither the
`sqrt` nor the internal assertion raises. -/
theorem claim6_first_desired (f l price : ℝ) (hp : 0 ≤ price) :
    (Consumer.init f l).desired_at_price price = some (max (f - l * price) 0) :=
  desired_fresh f l price

/-- Witness for C6 at `f = 10, l = 1, price = 4`: desired is `6`. -/
theorem claim6_first_desired_w :
    (0:ℝ) ≤ 4 ∧ (Consumer.init 10 1).desired_at_price 4 = some 6 := by
  refine ⟨by norm_num, ?_⟩
  rw [claim6_first_desired 10 1 4 (by norm_num)]
  norm_num

/-- Counterexample to claim C7 as stated: with a stock of 5 (the producer
`Producer(1, 1, 6)` after `produce()`), `sell(-3)` sells the negative amount
`-3` and the stock grows to 8, refuting "never sells a negative amount" for
an arbitrary argument. -/
theorem claim7_negative_sale :
    ((Producer.init 1 1 6).produce.sell (-3)).1 < 0 ∧
    ((Producer.init 1 1 6).produce.sell (-3)).2.stock = 8 := by
  have hstock : (Producer.init 1 1 6).produce.stock = 5 := by
    simp [Producer.init, Producer.produce]
    norm_num
  constructor
  · show min (-3 : ℝ) (Producer.init 1 1 6).produce.stock < 0
    rw [hstock]
    norm_num
  · show (Producer.init 1 1 6).produce.stock -
        min (-3 : ℝ) (Producer.init 1 1 6).produce.stock = 8
    rw [hstock]
    norm_num

/-- Claim C7, amended to non-negative arguments: for a producer with
non-negative stock and a non-negative `max_amount`, `sell` returns
`min(max_amount, stock)`, decrements the stock by exactly that amount, sells
neither a negative amount nor more than the stock, and the two special cases
hold: `x > stock` sells exactly `stock` leaving 0, `x <= stock` sells `x`
leaving `stock - x`. -/
theorem claim7_sell (p : Producer) (x : ℝ) (hx : 0 ≤ x) (hs : 0 ≤ p.stock) :
    (p.sell x).1 = min x p.stock ∧
    (p.sell x).2.stock = p.stock - (p.sell x).1 ∧
    0 ≤ (p.sell x).1 ∧
    (p.sell x).1 ≤ p.stock ∧
    (p.stock < x → (p.sell x).1 = p.stock ∧ (p.sell x).2.stock = 0) ∧
    (x ≤ p.stock → (p.sell x).1 = x ∧ (p.sell x).2.stock = p.stock - x) := by
  refine ⟨rfl, rfl, le_min hx hs, min_le_right _ _, fun h => ?_, fun h => ?_⟩
  · have hm : min x p.stock = p.stock := min_eq_right h.le
    exact ⟨hm, by show p.stock - min x p.stock = 0; rw [hm]; ring⟩
  · have hm : min x p.stock = x := min_eq_left h
    exact ⟨hm, by show p.stock - min x p.stock = p.stock - x; rw [hm]⟩

/-- Witness for C7 (amended) at stock 5, `x = 3`: sells 3, leaves 2. -/
theorem claim7_sell_w :
    ((Producer.mk 5 6 1 1).sell 3).1 = 3 ∧
    ((Producer.mk 5 6 1 1).sell 3).2.stock = 2 := by
  obtain ⟨-, -, -, -, -, h6⟩ :=
    claim7_sell (Producer.mk 5 6 1 1) 3 (by norm_num) (by show (0:ℝ) ≤ 5; norm_num)
  obtain ⟨h7, h8⟩ := h6 (by show (3:ℝ) ≤ 5; norm_num)
  refine ⟨h7, ?_⟩
  rw [h8]
  show (5:ℝ) - 3 = 2
  norm_num

/-- Claim C8: with positive price, `adjust_price` multiplies the price by
`PRICE_ADJUSTMENT = 1.02` (a strict increase) when `stock == 0`, and divides
it by `PRICE_ADJUSTMENT` (a strict decrease, staying positive) when
`stock > 0`. -/
theorem claim8_adjust_price (p : Producer) (hp : 0 < p.price) :
    (p.stock = 0 → p.adjust_price.price = p.price * PRICE_ADJUSTMENT ∧
      p.price < p.adjust_price.price) ∧
    (0 < p.stock → p.adjust_price.price = p.price / PRICE_ADJUSTMENT ∧
      p.adjust_price.price < p.price ∧ 0 < p.adjust_price.price) := by
  constructor
  · intro h
    have hval : p.adjust_price.price = p.price * PRICE_ADJUSTMENT := by
      simp [Producer.adjust_price, if_pos h]
    refine ⟨hval, ?_⟩
    rw [hval]
    exact lt_mul_of_one_lt_right hp (by norm_num [PRICE_ADJUSTMENT])
  · intro h
    have hval : p.adjust_price.price = p.price / PRICE_ADJUSTMENT := by
      simp [Producer.adjust_price, if_neg h.ne']
    refine ⟨hval, ?_, ?_⟩
    · rw [hval]
      exact div_lt_self hp (by norm_num [PRICE_ADJUSTMENT])
    · rw [hval]
      exact div_pos hp (by norm_num [PRICE_ADJUSTMENT])

/-- Witness for C8: a producer with price 6 and stock 0 raises its price to
`6 * 1.02`; one with price 6 and stock 3 lowers it to `6 / 1.02 > 0`. -/
theorem claim8_adjust_price_w :
    ((Producer.mk 0 6 1 1).adjust_price.price = 6 * PRICE_ADJUSTMENT ∧
      (6:ℝ) < (Producer.mk 0 6 1 1).adjust_price.price) ∧
    ((Producer.mk 3 6 1 1).adjust_price.price = 6 / PRICE_ADJUSTMENT ∧
      (Producer.mk 3 6 1 1).adjust_price.price < 6 ∧
      0 < (Producer.mk 3 6 1 1).adjust_price.price) := by
  constructor
  · exact (claim8_adjust_price (Producer.mk 0 6 1 1)
      (by show (0:ℝ) < 6; norm_num)).1 rfl
  · exact (claim8_adjust_price (Producer.mk 3 6 1 1)
      (by show (0:ℝ) < 6; norm_num)).2 (by show (0:ℝ) < 3; norm_num)

/-! ### Loop machinery lemmas -/

/-- The function `afterSale` leaves the producer queue untouched. -/
theorem afterSale_producer_queue (s : RoundState) (dreal : ℝ) :
    (afterSale s dreal).producer_queue = s.producer_queue := rfl

/-- The function `afterSale` leaves the consumer queue untouched. -/
theorem afterSale_consumer_queue (s : RoundState) (dreal : ℝ) :
    (afterSale s dreal).consumer_queue = s.consumer_queue := rfl

/-- The function `afterSale` counts one more transaction. -/
theorem afterSale_transactions (s : RoundState) (dreal : ℝ) :
    (afterSale s dreal).transactions = s.transactions + 1 := rfl

/-- Inversion of a successful `producerAdvance`. -/
theorem producerAdvance_inv {s t : RoundState} (h : producerAdvance s = some t) :
    (s.producer.stock = 0 ∧ ∃ p, s.producer_queue.head? = some p ∧
      t = { s with producer := p, producer_queue := s.producer_queue.tail,
                   done_producers := s.producer :: s.done_producers }) ∨
    (s.producer.stock ≠ 0 ∧ t = s) := by
  unfold producerAdvance at h
  split_ifs at h with hz
  · left
    rw [Option.map_eq_some'] at h
    obtain ⟨p, hp, ht⟩ := h
    exact ⟨hz, p, hp, ht.symm⟩
  · right
    exact ⟨hz, (Option.some.inj h).symm⟩

/-- Inversion of a successful `consumerAdvance`. -/
theorem consumerAdvance_inv {sh : Shuffle} {n : ℕ} {de pu : ℝ}
    {s t : RoundState} (h : consumerAdvance sh n de pu s = some t) :
    (de = pu ∧ ∃ c, s.consumer_queue.head? = some c ∧
      t = { s with consumer := c, consumer_queue := s.consumer_queue.tail,
                   done_consumers := s.consumer :: s.done_consumers }) ∨
    (de ≠ pu ∧ t = { s with consumer_queue := (sh n s.consumer_queue).1 }) := by
  unfold consumerAdvance at h
  split_ifs at h with he
  · left
    rw [Option.map_eq_some'] at h
    obtain ⟨c, hc, ht⟩ := h
    exact ⟨he, c, hc, ht.symm⟩
  · right
    exact ⟨he, (Option.some.inj h).symm⟩

/-- Inversion of a successful `matchStep`: the `desired_at_price` call
succeeded and both advances succeeded. -/
theorem matchStep_inv {sh : Shuffle} {n : ℕ} {s t : RoundState}
    (h : matchStep sh n s = some t) :
    ∃ dreal, s.consumer.desired_at_price s.producer.price = some dreal ∧
      ∃ s2, producerAdvance (afterSale s dreal) = some s2 ∧
        consumerAdvance sh n ((pyint dreal : ℤ) : ℝ)
          ((s.producer.sell ((pyint dreal : ℤ) : ℝ)).1) s2 = some t := by
  unfold matchStep at h
  rcases hd : s.consumer.desired_at_price s.producer.price with _ | dreal
  · rw [hd] at h
    simp at h
  · rw [hd] at h
    simp only [Option.bind_eq_some] at h
    obtain ⟨s2, h1, h2⟩ := h
    exact ⟨dreal, rfl, s2, h1, h2⟩

/-- If the sale does not empty the producer's stock, then the consumer's
floored desire was fully met (`desired == purchased`): the contrapositive of
`min(desired, stock) < desired → stock is sold out`. -/
theorem sale_no_pop_contradiction {s : RoundState} {dreal : ℝ}
    (hz : (afterSale s dreal).producer.stock ≠ 0)
    (he : ((pyint dreal : ℤ) : ℝ) ≠ (s.producer.sell ((pyint dreal : ℤ) : ℝ)).1) :
    False := by
  apply hz
  have hmin : min ((pyint dreal : ℤ) : ℝ) s.producer.stock = s.producer.stock := by
    rcases min_choice ((pyint dreal : ℤ) : ℝ) s.producer.stock with hm | hm
    · exact absurd hm.symm he
    · exact hm
  show (s.producer.sell ((pyint dreal : ℤ) : ℝ)).2.stock = 0
  simp [Producer.sell, hmin]

/-- A successful `matchStep` counts exactly one more transaction. -/
theorem matchStep_transactions {sh : Shuffle} {n : ℕ} {s t : RoundState}
    (h : matchStep sh n s = some t) : t.transactions = s.transactions + 1 := by
  obtain ⟨dreal, hd, s2, hpa, hca⟩ := matchStep_inv h
  rcases producerAdvance_inv hpa with ⟨hz, p, hp, rfl⟩ | ⟨hz, rfl⟩ <;>
    rcases consumerAdvance_inv hca with ⟨he, c, hc, rfl⟩ | ⟨he, rfl⟩ <;> rfl

/-- A successful `matchStep` never lengthens a queue and strictly shortens
at least one of the two queues. -/
theorem matchStep_lengths {sh : Shuffle} {n : ℕ} {s t : RoundState}
    (h : matchStep sh n s = some t) :
    t.producer_queue.length ≤ s.producer_queue.length ∧
    t.consumer_queue.length ≤ s.consumer_queue.length ∧
    (t.producer_queue.length < s.producer_queue.length ∨
      t.consumer_queue.length < s.consumer_queue.length) := by
  obtain ⟨dreal, hd, s2, hpa, hca⟩ := matchStep_inv h
  rcases producerAdvance_inv hpa with ⟨hz, p, hp, rfl⟩ | ⟨hz, rfl⟩ <;>
    rcases consumerAdvance_inv hca with ⟨he, c, hc, rfl⟩ | ⟨he, rfl⟩
  · rw [afterSale_producer_queue] at hp
    have hpne : s.producer_queue ≠ [] := by
      intro hnil
      rw [hnil] at hp
      simp at hp
    simp only [afterSale_consumer_queue] at hc
    have hcne : s.consumer_queue ≠ [] := by
      intro hnil
      rw [hnil] at hc
      simp at hc
    have h1 := List.length_pos.mpr hpne
    have h2 := List.length_pos.mpr hcne
    simp only [afterSale_producer_queue, afterSale_consumer_queue,
      List.length_tail]
    omega
  · rw [afterSale_producer_queue] at hp
    have hpne : s.producer_queue ≠ [] := by
      intro hnil
      rw [hnil] at hp
      simp at hp
    have h1 := List.length_pos.mpr hpne
    have hlen := List.Perm.length_eq (sh n s.consumer_queue).2
    simp only [afterSale_producer_queue, afterSale_consumer_queue,
      List.length_tail, hlen]
    omega
  · simp only [afterSale_consumer_queue] at hc
    have hcne : s.consumer_queue ≠ [] := by
      intro hnil
      rw [hnil] at hc
      simp at hc
    have h2 := List.length_pos.mpr hcne
    simp only [afterSale_producer_queue, afterSale_consumer_queue,
      List.length_tail]
    omega
  · exact (sale_no_pop_contradiction hz he).elim

/-- When the producer queue is empty the loop exits at once. -/
theorem matchLoop_pq_nil {sh : Shuffle} {n : ℕ} {s : RoundState}
    (h : s.producer_queue = []) : matchLoop sh n s = some s := by
  unfold matchLoop
  split
  · rfl
  · rfl
  · rename_i hpq hcq
    rw [h] at hpq
    simp at hpq

/-- When the consumer queue is empty the loop exits at once. -/
theorem matchLoop_cq_nil {sh : Shuffle} {n : ℕ} {s : RoundState}
    (h : s.consumer_queue = []) : matchLoop sh n s = some s := by
  unfold matchLoop
  split
  · rfl
  · rfl
  · rename_i hpq hcq
    rw [h] at hcq
    simp at hcq

/-- When both queues are non-empty, the loop runs one `matchStep` and
continues. -/
theorem matchLoop_cons {sh : Shuffle} {n : ℕ} {s : RoundState}
    (hp : s.producer_queue ≠ []) (hc : s.consumer_queue ≠ []) :
    matchLoop sh n s =
      (matchStep sh n s).bind (fun s1 => matchLoop sh (n + 1) s1) := by
  conv_lhs => unfold matchLoop
  split
  · exact absurd ‹s.producer_queue = []› hp
  · exact absurd ‹s.consumer_queue = []› hc
  · split
    · rename_i hnone
      rw [hnone]
      rfl
    · rename_i s1 hsome
      rw [hsome]
      rfl

/-- Any property preserved by `matchStep` is preserved by the whole loop. -/
theorem matchLoop_preserve (P : RoundState → Prop)
    (hP : ∀ sh n s t, matchStep sh n s = some t → P s → P t) (sh : Shuffle) :
    ∀ m n (s t : RoundState),
      s.producer_queue.length + s.consumer_queue.length ≤ m →
      matchLoop sh n s = some t → P s → P t := by
  intro m
  induction m with
  | zero =>
    intro n s t hle hloop hs
    have hnil : s.producer_queue = [] := by
      cases hq : s.producer_queue with
      | nil => rfl
      | cons a l =>
        rw [hq] at hle
        simp at hle
    rw [matchLoop_pq_nil hnil] at hloop
    injection hloop with h2
    subst h2
    exact hs
  | succ m ih =>
    intro n s t hle hloop hs
    by_cases hpq : s.producer_queue = []
    · rw [matchLoop_pq_nil hpq] at hloop
      injection hloop with h2
      subst h2
      exact hs
    · by_cases hcq : s.consumer_queue = []
      · rw [matchLoop_cq_nil hcq] at hloop
        injection hloop with h2
        subst h2
        exact hs
      · rw [matchLoop_cons hpq hcq] at hloop
        rcases hms : matchStep sh n s with _ | s1
        · rw [hms] at hloop
          simp at hloop
        · rw [hms] at hloop
          have hloop2 : matchLoop sh (n + 1) s1 = some t := hloop
          obtain ⟨ha, hb, hc⟩ := matchStep_lengths hms
          have hle2 : s1.producer_queue.length + s1.consumer_queue.length ≤ m := by
            omega
          exact ih (n + 1) s1 t hle2 hloop2 (hP sh n s s1 hms hs)

/-- The transaction counter never decreases across the loop. -/
theorem matchLoop_transactions_le {sh : Shuffle} {n : ℕ} {s t : RoundState}
    (h : matchLoop sh n s = some t) : s.transactions ≤ t.transactions :=
  matchLoop_preserve (fun u => s.transactions ≤ u.transactions)
    (fun _ _ s2 t2 hstep hle => by
      show s.transactions ≤ t2.transactions
      rw [matchStep_transactions hstep]
      exact le_trans hle (Nat.le_succ _))
    sh (s.producer_queue.length + s.consumer_queue.length) n s t le_rfl h le_rfl

/-- Python's `int()` of an integer value is that integer. -/
theorem pyint_intCast (m : ℤ) : pyint (m : ℝ) = m := by
  unfold pyint
  split_ifs with h
  · exact Int.floor_intCast m
  · exact Int.ceil_intCast m

/-- A round with exactly one producer and one consumer: both queues are empty
immediately after the unconditional initial pops, so the `while` guard fails
at once and the loop body never runs. -/
theorem simulate_one_one (sh : Shuffle) (p : Producer) (c : Consumer) :
    simulate_round sh [p] [c] =
      some (finishRound ⟨p.produce, [], c.reset, [], [], [], 0, 0, 0⟩) := by
  unfold simulate_round
  have hshuf : (sh 0 ([c].map Consumer.reset)).1 = [c.reset] :=
    List.perm_singleton.mp (sh 0 [c.reset]).2
  rw [hshuf]
  have hsort : List.insertionSort (fun a b : Producer => a.price ≤ b.price)
      ([p].map Producer.produce) = [p.produce] := rfl
  rw [hsort]
  show (matchLoop sh 1 ⟨p.produce, [], c.reset, [], [], [], 0, 0, 0⟩).map
      finishRound = _
  rw [matchLoop_pq_nil rfl]
  rfl

/-! ### Claims C9, C2, C1, C3, C4 -/

/-- Claim C9: the matching loop terminates because every successful loop
iteration (`matchStep`) pops at least one element from the producer queue or
the consumer queue, and never lengthens either queue; this includes the case
of a floored integer demand of 0, where `desired == purchased == 0` pops the
consumer.  (`matchLoop` is accepted by well-founded recursion on exactly this
measure.) -/
theorem claim9_step_pops (sh : Shuffle) (n : ℕ) (s t : RoundState)
    (h : matchStep sh n s = some t) :
    t.producer_queue.length ≤ s.producer_queue.length ∧
    t.consumer_queue.length ≤ s.consumer_queue.length ∧
    (t.producer_queue.length < s.producer_queue.length ∨
      t.consumer_queue.length < s.consumer_queue.length) :=
  matchStep_lengths h

/-- Witness for C9: a concrete transaction (stock 5, price 6, fresh demand
curve `20 - 1·price`... here `10 - 1·price` giving desire 4) pops the
consumer queue. -/
theorem claim9_step_pops_w :
    matchStep idShuffle 1
      ⟨Producer.mk 5 6 1 1, [Producer.mk 7 8 1 1], Consumer.mk 10 1 0 0,
        [Consumer.mk 10 1 0 0], [], [], 0, 0, 0⟩ =
      some ⟨Producer.mk 1 6 1 1, [Producer.mk 7 8 1 1], Consumer.mk 10 1 0 0,
        [], [], [Consumer.mk 10 1 4 24], 4, 24, 1⟩ ∧
    (([Consumer.mk 10 1 0 0] : List Consumer).length <
      ([Consumer.mk 10 1 0 0] : List Consumer).length ∨
      ([] : List Consumer).length < 1) := by
  have hd4 : (Consumer.mk 10 1 0 0 : Consumer).desired_at_price 6 = some 4 := by
    show (Consumer.init 10 1).desired_at_price 6 = some 4
    rw [desired_fresh]
    norm_num
  have hpy : pyint (4 : ℝ) = 4 := by
    rw [show (4 : ℝ) = ((4 : ℤ) : ℝ) by norm_num]
    exact pyint_intCast 4
  have heval : matchStep idShuffle 1
      ⟨Producer.mk 5 6 1 1, [Producer.mk 7 8 1 1], Consumer.mk 10 1 0 0,
        [Consumer.mk 10 1 0 0], [], [], 0, 0, 0⟩ =
      some ⟨Producer.mk 1 6 1 1, [Producer.mk 7 8 1 1], Consumer.mk 10 1 0 0,
        [], [], [Consumer.mk 10 1 4 24], 4, 24, 1⟩ := by
    simp only [matchStep]
    rw [hd4]
    norm_num [afterSale, producerAdvance, consumerAdvance, Producer.sell,
      Consumer.purchase, hpy, min_def, idShuffle]
  refine ⟨heval, ?_⟩
  have h := (claim9_step_pops idShuffle 1 _ _ heval).2.2
  simpa using h

/-- Counterexample to claim C2 as stated: one producer and one consumer is a
round "started with at least one producer and at least one consumer", yet the
code executes zero transactions: after the initial pops both queues are
empty, the `while` guard (tested *before* any transaction) fails, and the
loop body never runs. -/
theorem claim2_counterexample :
    (simulate_round idShuffle [Producer.init 1 2 6]
      [Consumer.init 12 1]).map RoundOutcome.transactions = some 0 := by
  rw [simulate_one_one]
  rfl

/-- Claim C2, amended: a transaction is executed before the matching loop
terminates iff the queues are both non-empty after the initial pops, i.e.
iff at least two producers and at least two consumers are supplied; with
both queues empty of successors (e.g. exactly one producer and one consumer)
the loop exits immediately with zero transactions.  Stated here as: from any
loop state with two non-empty queues, a normally terminating loop strictly
increases the transaction counter. -/
theorem claim2_loop_transacts (sh : Shuffle) (n : ℕ) (s t : RoundState)
    (hp : s.producer_queue ≠ []) (hc : s.consumer_queue ≠ [])
    (h : matchLoop sh n s = some t) :
    s.transactions < t.transactions := by
  rw [matchLoop_cons hp hc] at h
  rcases hms : matchStep sh n s with _ | s1
  · rw [hms] at h
    simp at h
  · rw [hms] at h
    have h2 : matchLoop sh (n + 1) s1 = some t := h
    have h3 := matchLoop_transactions_le h2
    have h4 := matchStep_transactions hms
    omega

/-- Witness for C2 (amended): a loop over two producers and two consumers
executes one transaction. -/
theorem claim2_loop_transacts_w :
    matchLoop idShuffle 1
      ⟨Producer.mk 3 4 1 1, [Producer.mk 5 6 1 1], Consumer.mk 5 1 0 0,
        [Consumer.mk 5 1 0 0], [], [], 0, 0, 0⟩ =
      some ⟨Producer.mk 2 4 1 1, [Producer.mk 5 6 1 1], Consumer.mk 5 1 0 0,
        [], [], [Consumer.mk 5 1 1 4], 1, 4, 1⟩ ∧
    (0 : ℕ) < 1 := by
  have hd1 : (Consumer.mk 5 1 0 0 : Consumer).desired_at_price 4 = some 1 := by
    show (Consumer.init 5 1).desired_at_price 4 = some 1
    rw [desired_fresh]
    norm_num
  have hpy : pyint (1 : ℝ) = 1 := by
    rw [show (1 : ℝ) = ((1 : ℤ) : ℝ) by norm_num]
    exact pyint_intCast 1
  have hstep : matchStep idShuffle 1
      ⟨Producer.mk 3 4 1 1, [Producer.mk 5 6 1 1], Consumer.mk 5 1 0 0,
        [Consumer.mk 5 1 0 0], [], [], 0, 0, 0⟩ =
      some ⟨Producer.mk 2 4 1 1, [Producer.mk 5 6 1 1], Consumer.mk 5 1 0 0,
        [], [], [Consumer.mk 5 1 1 4], 1, 4, 1⟩ := by
    simp only [matchStep]
    rw [hd1]
    norm_num [afterSale, producerAdvance, consumerAdvance, Producer.sell,
      Consumer.purchase, hpy, min_def, idShuffle]
  have heval : matchLoop idShuffle 1
      ⟨Producer.mk 3 4 1 1, [Producer.mk 5 6 1 1], Consumer.mk 5 1 0 0,
        [Consumer.mk 5 1 0 0], [], [], 0, 0, 0⟩ =
      some ⟨Producer.mk 2 4 1 1, [Producer.mk 5 6 1 1], Consumer.mk 5 1 0 0,
        [], [], [Consumer.mk 5 1 1 4], 1, 4, 1⟩ := by
    rw [matchLoop_cons (by simp) (by simp), hstep]
    show matchLoop idShuffle 2 _ = _
    exact matchLoop_cq_nil rfl
  refine ⟨heval, ?_⟩
  exact claim2_loop_transacts idShuffle 1 _ _ (by simp) (by simp) heval

/-- Claim C1 on the code: with one producer `(1, 1, 6)` and one consumer
`(20, 1)`, the code does NOT trade 5 units at price 6.  No transaction runs
(both queues are empty after the initial pops), `total_sold = 0`, every
producer still holds stock so the price is *divided* by 1.02 (to `6/1.02`,
not raised to `6*1.02 = 6.12`), and the final
`total_paid / total_sold` division raises `ZeroDivisionError`
(`average_price = none`). -/
theorem claim1_concrete_round (sh : Shuffle) :
    simulate_round sh [Producer.init 1 1 6] [Consumer.init 20 1] =
      some { total_sold := 0, total_paid := 0, average_price := none,
             producers := [Producer.mk 5 (6 / PRICE_ADJUSTMENT) 1 1],
             consumers := [Consumer.mk 20 1 0 0],
             transactions := 0 } ∧
    (6 : ℝ) / PRICE_ADJUSTMENT ≠ 6 * PRICE_ADJUSTMENT := by
  constructor
  · rw [simulate_one_one]
    unfold finishRound
    norm_num [Producer.init, Producer.produce, Producer.adjust_price,
      Consumer.init, Consumer.reset, PRICE_ADJUSTMENT]
  · norm_num [PRICE_ADJUSTMENT]

/-- Claim C3 on the code: the average-price division is unguarded; whenever a
round reaches the return statement with `total_sold = 0`, the code raises
`ZeroDivisionError` (embedded: `average_price = none`) instead of returning a
distinct "no trade" value, and `average_price` is `none` exactly when
`total_sold = 0`. -/
theorem claim3_zero_sold_division (sh : Shuffle) (ps : List Producer)
    (cs : List Consumer) (out : RoundOutcome)
    (h : simulate_round sh ps cs = some out) :
    (out.average_price = none ↔ out.total_sold = 0) := by
  unfold simulate_round at h
  rcases hsh : (sh 0 (cs.map Consumer.reset)).1 with _ | ⟨c0, cq0⟩ <;>
    rw [hsh] at h
  · simp at h
  · rcases hso : List.insertionSort (fun a b : Producer => a.price ≤ b.price)
        (ps.map Producer.produce) with _ | ⟨p0, pq0⟩ <;>
      rw [hso] at h
    · simp at h
    · simp only [Option.map_eq_some'] at h
      obtain ⟨fin, hfin, rfl⟩ := h
      show (finishRound fin).average_price = none ↔ (finishRound fin).total_sold = 0
      unfold finishRound
      split_ifs with h0
      · simp [h0]
      · simp [h0]

/-- Witness for C3: a concrete one-producer/one-consumer round returns
`total_sold = 0` and a `none` average price. -/
theorem claim3_zero_sold_division_w :
    simulate_round idShuffle [Producer.init 2 1 5] [Consumer.init 30 2] =
      some { total_sold := 0, total_paid := 0, average_price := none,
             producers := [Producer.mk 3 (5 / PRICE_ADJUSTMENT) 2 1],
             consumers := [Consumer.mk 30 2 0 0],
             transactions := 0 } ∧
    ((none : Option ℝ) = none ↔ (0 : ℝ) = 0) := by
  have heval : simulate_round idShuffle [Producer.init 2 1 5]
      [Consumer.init 30 2] =
      some { total_sold := 0, total_paid := 0, average_price := none,
             producers := [Producer.mk 3 (5 / PRICE_ADJUSTMENT) 2 1],
             consumers := [Consumer.mk 30 2 0 0],
             transactions := 0 } := by
    rw [simulate_one_one]
    unfold finishRound
    norm_num [Producer.init, Producer.produce, Producer.adjust_price,
      Consumer.init, Consumer.reset, PRICE_ADJUSTMENT]
  refine ⟨heval, ?_⟩
  exact claim3_zero_sold_division idShuffle _ _ _ heval

/-- Claim C4 on the code: with an empty producer list or an empty consumer
list there is no precondition check; the code runs the produce/reset phase
and then crashes with `IndexError` on the unconditional `pop(0)` (embedded:
`simulate_round` returns `none` rather than any outcome). -/
theorem claim4_empty_population :
    simulate_round idShuffle [] [Consumer.init 20 1] = none ∧
    simulate_round idShuffle [Producer.init 1 1 6] [] = none ∧
    simulate_round idShuffle ([] : List Producer) ([] : List Consumer) = none := by
  refine ⟨rfl, rfl, rfl⟩

/-! ### Conservation machinery for C10 -/

/-- The function `afterSale` updates the producer by the sale. -/
theorem afterSale_producer (s : RoundState) (dreal : ℝ) :
    (afterSale s dreal).producer = (s.producer.sell ((pyint dreal : ℤ) : ℝ)).2 := rfl

/-- The function `afterSale` updates the consumer by the purchase. -/
theorem afterSale_consumer (s : RoundState) (dreal : ℝ) :
    (afterSale s dreal).consumer =
      s.consumer.purchase ((s.producer.sell ((pyint dreal : ℤ) : ℝ)).1)
        s.producer.price := rfl

/-- The function `afterSale` keeps the retired producers. -/
theorem afterSale_done_producers (s : RoundState) (dreal : ℝ) :
    (afterSale s dreal).done_producers = s.done_producers := rfl

/-- The function `afterSale` keeps the retired consumers. -/
theorem afterSale_done_consumers (s : RoundState) (dreal : ℝ) :
    (afterSale s dreal).done_consumers = s.done_consumers := rfl

/-- The function `afterSale` accumulates the amount sold. -/
theorem afterSale_total_sold (s : RoundState) (dreal : ℝ) :
    (afterSale s dreal).total_sold =
      s.total_sold + (s.producer.sell ((pyint dreal : ℤ) : ℝ)).1 := rfl

/-- The function `afterSale` accumulates the amount paid. -/
theorem afterSale_total_paid (s : RoundState) (dreal : ℝ) :
    (afterSale s dreal).total_paid =
      s.total_paid + (s.producer.sell ((pyint dreal : ℤ) : ℝ)).1 * s.producer.price := rfl

/-- Price adjustment never touches the stock. -/
theorem adjust_price_stock (p : Producer) : p.adjust_price.stock = p.stock := by
  unfold Producer.adjust_price
  split_ifs <;> rfl

/-- Inversion of `producerAdvance` with the queue exposed as a cons cell. -/
theorem producerAdvance_inv_cons {s t : RoundState}
    (h : producerAdvance s = some t) :
    (s.producer.stock = 0 ∧ ∃ p ps2, s.producer_queue = p :: ps2 ∧
      t = { s with producer := p, producer_queue := s.producer_queue.tail,
                   done_producers := s.producer :: s.done_producers }) ∨
    (s.producer.stock ≠ 0 ∧ t = s) := by
  rcases producerAdvance_inv h with ⟨hz, p, hp, ht⟩ | hdone
  · exact Or.inl ⟨hz, p, s.producer_queue.tail,
      (List.cons_head?_tail hp).symm, ht⟩
  · exact Or.inr hdone

/-- Inversion of `consumerAdvance` with the queue exposed as a cons cell. -/
theorem consumerAdvance_inv_cons {sh : Shuffle} {n : ℕ} {de pu : ℝ}
    {s t : RoundState} (h : consumerAdvance sh n de pu s = some t) :
    (de = pu ∧ ∃ c cs2, s.consumer_queue = c :: cs2 ∧
      t = { s with consumer := c, consumer_queue := s.consumer_queue.tail,
                   done_consumers := s.consumer :: s.done_consumers }) ∨
    (de ≠ pu ∧ t = { s with consumer_queue := (sh n s.consumer_queue).1 }) := by
  rcases consumerAdvance_inv h with ⟨he, c, hc, ht⟩ | hdone
  · exact Or.inl ⟨he, c, s.consumer_queue.tail,
      (List.cons_head?_tail hc).symm, ht⟩
  · exact Or.inr hdone

/-- One `matchStep` conserves: the amount sold flows one-to-one into consumer
purchase accumulators and out of producer stocks, and the amount paid flows
one-to-one into consumer payment accumulators. -/
theorem matchStep_sums {sh : Shuffle} {n : ℕ} {s t : RoundState}
    (h : matchStep sh n s = some t) :
    consSum t - t.total_sold = consSum s - s.total_sold ∧
    stockSum t + t.total_sold = stockSum s + s.total_sold ∧
    paidSum t - t.total_paid = paidSum s - s.total_paid := by
  obtain ⟨dreal, hd, s2, hpa, hca⟩ := matchStep_inv h
  rcases producerAdvance_inv_cons hpa with ⟨hz, p, ps2, hq, rfl⟩ | ⟨hz, rfl⟩ <;>
    rcases consumerAdvance_inv_cons hca with ⟨he, c, cs2, hcq, rfl⟩ | ⟨he, rfl⟩
  · rw [afterSale_producer_queue] at hq
    simp only [afterSale_consumer_queue] at hcq
    refine ⟨?_, ?_, ?_⟩ <;>
      simp only [consSum, stockSum, paidSum, afterSale_producer,
        afterSale_consumer, afterSale_producer_queue, afterSale_consumer_queue,
        afterSale_done_producers, afterSale_done_consumers,
        afterSale_total_sold, afterSale_total_paid, Producer.sell,
        Consumer.purchase, hq, hcq, List.tail_cons, List.map_cons,
        List.sum_cons] <;> ring
  · rw [afterSale_producer_queue] at hq
    have hps := List.Perm.sum_eq (List.Perm.map Consumer.purchased_this_round
      ((sh n s.consumer_queue).2))
    have hpd := List.Perm.sum_eq (List.Perm.map Consumer.paid_this_round
      ((sh n s.consumer_queue).2))
    refine ⟨?_, ?_, ?_⟩ <;>
      simp only [consSum, stockSum, paidSum, afterSale_producer,
        afterSale_consumer, afterSale_producer_queue, afterSale_consumer_queue,
        afterSale_done_producers, afterSale_done_consumers,
        afterSale_total_sold, afterSale_total_paid, Producer.sell,
        Consumer.purchase, hq, hps, hpd, List.tail_cons, List.map_cons,
        List.sum_cons] <;> ring
  · simp only [afterSale_consumer_queue] at hcq
    refine ⟨?_, ?_, ?_⟩ <;>
      simp only [consSum, stockSum, paidSum, afterSale_producer,
        afterSale_consumer, afterSale_producer_queue, afterSale_consumer_queue,
        afterSale_done_producers, afterSale_done_consumers,
        afterSale_total_sold, afterSale_total_paid, Producer.sell,
        Consumer.purchase, hcq, List.tail_cons, List.map_cons,
        List.sum_cons] <;> ring
  · exact (sale_no_pop_contradiction hz he).elim

/-- The whole matching loop conserves the three quantities of
`matchStep_sums`. -/
theorem matchLoop_sums {sh : Shuffle} {n : ℕ} {s t : RoundState}
    (h : matchLoop sh n s = some t) :
    consSum t - t.total_sold = consSum s - s.total_sold ∧
    stockSum t + t.total_sold = stockSum s + s.total_sold ∧
    paidSum t - t.total_paid = paidSum s - s.total_paid := by
  refine matchLoop_preserve
    (fun u => consSum u - u.total_sold = consSum s - s.total_sold ∧
      stockSum u + u.total_sold = stockSum s + s.total_sold ∧
      paidSum u - u.total_paid = paidSum s - s.total_paid)
    (fun sh2 n2 s2 t2 hstep hP => ?_) sh
    (s.producer_queue.length + s.consumer_queue.length) n s t le_rfl h
    ⟨rfl, rfl, rfl⟩
  obtain ⟨h1, h2, h3⟩ := matchStep_sums hstep
  obtain ⟨g1, g2, g3⟩ := hP
  exact ⟨h1.trans g1, h2.trans g2, h3.trans g3⟩

/-- Claim C10: whenever a round completes normally, the returned `total_sold`
equals the sum of `purchased_this_round` over all consumers, the produced
stock equals `total_sold` plus the remaining stock over all producers (the
total stock decrease is `total_sold`), and `total_paid` equals the sum of
`paid_this_round` over all consumers. -/
theorem claim10_conservation (sh : Shuffle) (producers : List Producer)
    (consumers : List Consumer) (out : RoundOutcome)
    (h : simulate_round sh producers consumers = some out)
    (hnormal : out.average_price ≠ none) :
    out.total_sold = (out.consumers.map Consumer.purchased_this_round).sum ∧
    (producers.map fun p => p.produce.stock).sum =
      out.total_sold + (out.producers.map Producer.stock).sum ∧
    out.total_paid = (out.consumers.map Consumer.paid_this_round).sum := by
  unfold simulate_round at h
  rcases hsh : (sh 0 (consumers.map Consumer.reset)).1 with _ | ⟨c0, cq0⟩ <;>
    rw [hsh] at h
  · simp at h
  · rcases hso : List.insertionSort (fun a b : Producer => a.price ≤ b.price)
        (producers.map Producer.produce) with _ | ⟨p0, pq0⟩ <;>
      rw [hso] at h
    · simp at h
    · simp only [Option.map_eq_some'] at h
      obtain ⟨fin, hfin, rfl⟩ := h
      obtain ⟨i1, i2, i3⟩ := matchLoop_sums hfin
      -- the initial state has zero purchase/payment accumulators
      have hperm : (c0 :: cq0).Perm (consumers.map Consumer.reset) := by
        rw [← hsh]
        exact (sh 0 (consumers.map Consumer.reset)).2
      have hall : ∀ c ∈ consumers.map Consumer.reset,
          c.purchased_this_round = 0 ∧ c.paid_this_round = 0 := by
        intro c hc
        obtain ⟨y, _, rfl⟩ := List.mem_map.mp hc
        exact ⟨rfl, rfl⟩
      have hcons0 : ((c0 :: cq0).map Consumer.purchased_this_round).sum = 0 :=
        List.sum_eq_zero (by
          intro x hx
          obtain ⟨y, hy, rfl⟩ := List.mem_map.mp hx
          exact (hall y (hperm.subset hy)).1)
      have hpaid0 : ((c0 :: cq0).map Consumer.paid_this_round).sum = 0 :=
        List.sum_eq_zero (by
          intro x hx
          obtain ⟨y, hy, rfl⟩ := List.mem_map.mp hx
          exact (hall y (hperm.subset hy)).2)
      -- the initial producer queue carries exactly the produced stock
      have hpermP : (p0 :: pq0).Perm (producers.map Producer.produce) := by
        rw [← hso]
        exact List.perm_insertionSort _ _
      have hstock0 : ((p0 :: pq0).map Producer.stock).sum =
          (producers.map fun p => p.produce.stock).sum := by
        rw [List.Perm.sum_eq (hpermP.map Producer.stock)]
        rw [List.map_map]
        rfl
      -- initial-state sums
      have hc0 : consSum ⟨p0, pq0, c0, cq0, [], [], 0, 0, 0⟩ = 0 := by
        simp only [consSum, List.map_cons, List.sum_cons] at hcons0 ⊢
        simp only [List.map_nil, List.sum_nil]
        linarith
      have hp0 : paidSum ⟨p0, pq0, c0, cq0, [], [], 0, 0, 0⟩ = 0 := by
        simp only [paidSum, List.map_cons, List.sum_cons] at hpaid0 ⊢
        simp only [List.map_nil, List.sum_nil]
        linarith
      have hs0 : stockSum ⟨p0, pq0, c0, cq0, [], [], 0, 0, 0⟩ =
          (producers.map fun p => p.produce.stock).sum := by
        simp only [stockSum, List.map_cons, List.sum_cons] at hstock0 ⊢
        simp only [List.map_nil, List.sum_nil]
        linarith
      -- final-state sums match the outcome fields
      have hoc : ((finishRound fin).consumers.map
          Consumer.purchased_this_round).sum = consSum fin := by
        show ((fin.done_consumers.reverse ++ fin.consumer ::
          fin.consumer_queue).map Consumer.purchased_this_round).sum = _
        simp only [consSum, List.map_append, List.sum_append, List.map_reverse,
          List.sum_reverse, List.map_cons, List.sum_cons]
        ring
      have hopaid : ((finishRound fin).consumers.map
          Consumer.paid_this_round).sum = paidSum fin := by
        show ((fin.done_consumers.reverse ++ fin.consumer ::
          fin.consumer_queue).map Consumer.paid_this_round).sum = _
        simp only [paidSum, List.map_append, List.sum_append, List.map_reverse,
          List.sum_reverse, List.map_cons, List.sum_cons]
        ring
      have hop : ((finishRound fin).producers.map Producer.stock).sum =
          stockSum fin := by
        show (((fin.done_producers.reverse ++ fin.producer ::
          fin.producer_queue).map Producer.adjust_price).map
            Producer.stock).sum = _
        simp only [stockSum, List.map_map, Function.comp_def,
          adjust_price_stock, List.map_append, List.sum_append,
          List.map_reverse, List.sum_reverse, List.map_cons, List.sum_cons]
        ring
      have hts : (finishRound fin).total_sold = fin.total_sold := rfl
      have htp : (finishRound fin).total_paid = fin.total_paid := rfl
      rw [hc0] at i1
      rw [hs0] at i2
      rw [hp0] at i3
      simp only [RoundState.total_sold] at i1 i2 i3
      refine ⟨?_, ?_, ?_⟩
      · rw [hts, hoc]
        linarith
      · rw [hts, hop]
        linarith
      · rw [htp, hopaid]
        linarith

/-- Witness for C10: a two-producer/two-consumer round that sells 3 units at
price 6 satisfies all three conservation equations. -/
theorem claim10_conservation_w :
    simulate_round idShuffle [Producer.init 1 1 6, Producer.init 1 1 8]
      [Consumer.init 9 1, Consumer.init 9 1] =
      some { total_sold := 3, total_paid := 18, average_price := some 6,
             producers := [Producer.mk 2 (6 / PRICE_ADJUSTMENT) 1 1,
               Producer.mk 7 (8 / PRICE_ADJUSTMENT) 1 1],
             consumers := [Consumer.mk 9 1 3 18, Consumer.mk 9 1 0 0],
             transactions := 1 } ∧
    ((3 : ℝ) = ([Consumer.mk 9 1 3 18, Consumer.mk 9 1 0 0].map
        Consumer.purchased_this_round).sum ∧
      ([Producer.init 1 1 6, Producer.init 1 1 8].map
        fun p => p.produce.stock).sum =
        3 + ([Producer.mk 2 (6 / PRICE_ADJUSTMENT) 1 1,
          Producer.mk 7 (8 / PRICE_ADJUSTMENT) 1 1].map Producer.stock).sum ∧
      (18 : ℝ) = ([Consumer.mk 9 1 3 18, Consumer.mk 9 1 0 0].map
        Consumer.paid_this_round).sum) := by
  have hd3 : (Consumer.mk 9 1 0 0 : Consumer).desired_at_price 6 = some 3 := by
    show (Consumer.init 9 1).desired_at_price 6 = some 3
    rw [desired_fresh]
    norm_num
  have hpy : pyint (3 : ℝ) = 3 := by
    rw [show (3 : ℝ) = ((3 : ℤ) : ℝ) by norm_num]
    exact pyint_intCast 3
  have hstep : matchStep idShuffle 1
      ⟨Producer.mk 5 6 1 1, [Producer.mk 7 8 1 1], Consumer.mk 9 1 0 0,
        [Consumer.mk 9 1 0 0], [], [], 0, 0, 0⟩ =
      some ⟨Producer.mk 2 6 1 1, [Producer.mk 7 8 1 1], Consumer.mk 9 1 0 0,
        [], [], [Consumer.mk 9 1 3 18], 3, 18, 1⟩ := by
    simp only [matchStep]
    rw [hd3]
    norm_num [afterSale, producerAdvance, consumerAdvance, Producer.sell,
      Consumer.purchase, hpy, min_def, idShuffle]
  have heval : simulate_round idShuffle
      [Producer.init 1 1 6, Producer.init 1 1 8]
      [Consumer.init 9 1, Consumer.init 9 1] =
      some { total_sold := 3, total_paid := 18, average_price := some 6,
             producers := [Producer.mk 2 (6 / PRICE_ADJUSTMENT) 1 1,
               Producer.mk 7 (8 / PRICE_ADJUSTMENT) 1 1],
             consumers := [Consumer.mk 9 1 3 18, Consumer.mk 9 1 0 0],
             transactions := 1 } := by
    unfold simulate_round
    have h1 : ((idShuffle 0 (List.map Consumer.reset
        [Consumer.init 9 1, Consumer.init 9 1])).1 : List Consumer) =
        [Consumer.mk 9 1 0 0, Consumer.mk 9 1 0 0] := rfl
    have h2 : List.insertionSort (fun a b : Producer => a.price ≤ b.price)
        (List.map Producer.produce
          [Producer.init 1 1 6, Producer.init 1 1 8]) =
        [Producer.mk 5 6 1 1, Producer.mk 7 8 1 1] := by
      norm_num [List.insertionSort, List.orderedInsert, Producer.produce,
        Producer.init, max_def]
    rw [h1, h2]
    show (matchLoop idShuffle 1
      ⟨Producer.mk 5 6 1 1, [Producer.mk 7 8 1 1], Consumer.mk 9 1 0 0,
        [Consumer.mk 9 1 0 0], [], [], 0, 0, 0⟩).map finishRound = _
    rw [matchLoop_cons (by simp) (by simp), hstep]
    show (matchLoop idShuffle 2
      ⟨Producer.mk 2 6 1 1, [Producer.mk 7 8 1 1], Consumer.mk 9 1 0 0,
        [], [], [Consumer.mk 9 1 3 18], 3, 18, 1⟩).map finishRound = _
    rw [matchLoop_cq_nil rfl]
    show some (finishRound _) = _
    unfold finishRound
    norm_num [Producer.adjust_price, PRICE_ADJUSTMENT]
  refine ⟨heval, ?_⟩
  have h := claim10_conservation idShuffle
    [Producer.init 1 1 6, Producer.init 1 1 8]
    [Consumer.init 9 1, Consumer.init 9 1] _ heval (by simp)
  exact h

end OneCommodity
